import Mathlib

/-!
Verification development for the bot-buy-check repository: a shallow
embedding, in Lean 4, of the swap classifier, block-scanning loop,
alert/dedup pipeline, database layer and pattern detectors, together with
theorems checking the natural-language specification against the code.

Machine integers of the source are modelled as `Nat`; Python floats
(prices, volumes, amounts) are modelled as `Rat`; fallible calls
(RPC calls, DB calls) are modelled as `Except PyErr` values supplied by
explicit environment records, and `try/except` blocks of the source
become explicit `match` recoveries on those `Except` values.
-/

namespace BotBuyCheck

/-- a Python exception value (message only). -/
structure PyErr where
  msg : String
deriving DecidableEq, Repr

/-! ### Configuration constants (config.py) -/

def PUMP_DUMP_PERCENT_THRESHOLD : ℚ := 20

def PUMP_DUMP_TIME_WINDOW : ℤ := 24

def ACCUMULATION_THRESHOLD : Nat := 5

def ACCUMULATION_TIME_WINDOW : ℤ := 48

def ZERO_ADDRESS : String := "0x0000000000000000000000000000000000000000"

/-! ### Swap event arguments and the buy classifier (blockchain_listener.py) -/

/-- the `args` of a decoded Uniswap V2 `Swap` event (uint256 amounts). -/
structure SwapArgs where
  amount0In : Nat
  amount1In : Nat
  amount0Out : Nat
  amount1Out : Nat
deriving DecidableEq, Repr

/-- `BlockchainListener._is_token_buy` (blockchain_listener.py lines 199-211):
returns `True` on the first branch `amount0In > 0 and amount1Out > 0`,
`True` on the second branch `amount1In > 0 and amount0Out > 0`, else `False`. -/
def is_token_buy (e : SwapArgs) : Bool :=
  if e.amount0In > 0 ∧ e.amount1Out > 0 then true
  else if e.amount1In > 0 ∧ e.amount0Out > 0 then true
  else false

/-- side-0 buy shape: reference asset in on side 0, token out on side 1. -/
def side0Active (e : SwapArgs) : Prop := 0 < e.amount0In ∧ 0 < e.amount1Out

/-- side-1 buy shape: reference asset in on side 1, token out on side 0. -/
def side1Active (e : SwapArgs) : Prop := 0 < e.amount1In ∧ 0 < e.amount0Out

instance (e : SwapArgs) : Decidable (side0Active e) := by
  unfold side0Active; infer_instance

instance (e : SwapArgs) : Decidable (side1Active e) := by
  unfold side1Active; infer_instance

/-- C1 (counterexample). The spec claims `classify` returns Buy iff EXACTLY ONE
of the two side conditions holds, and that a both-sides-active tuple is not a
buy.  On the tuple {amount0In = 1, amount1In = 1, amount0Out = 1,
amount1Out = 1} both side conditions hold (so "exactly one" fails), yet
`_is_token_buy` takes its first branch and returns `True`. -/
theorem is_token_buy_both_sides_counterexample :
    is_token_buy ⟨1, 1, 1, 1⟩ = true ∧
      ¬ Xor' (side0Active ⟨1, 1, 1, 1⟩) (side1Active ⟨1, 1, 1, 1⟩) := by
  decide

/-- C1 (amended). `_is_token_buy` returns Buy iff AT LEAST ONE of
(amount0In > 0 and amount1Out > 0), (amount1In > 0 and amount0Out > 0)
holds (inclusive or, so a both-sides-active tuple IS classified as a buy),
and the all-zero tuple is not a buy. -/
theorem is_token_buy_iff_inclusive_or :
    (∀ e : SwapArgs, is_token_buy e = true ↔ (side0Active e ∨ side1Active e)) ∧
      is_token_buy ⟨0, 0, 0, 0⟩ = false := by
  constructor
  · intro e
    unfold is_token_buy side0Active side1Active
    by_cases h0 : e.amount0In > 0 ∧ e.amount1Out > 0
    · simp [h0]
    · by_cases h1 : e.amount1In > 0 ∧ e.amount0Out > 0 <;> simp [h0, h1]
  · decide

/-! ### numpy primitives used by pattern_detector.py, over rational lists -/

/-- `np.max` of a list (the source only applies it to nonempty arrays). -/
def np_max : List ℚ → ℚ
  | [] => 0
  | [x] => x
  | x :: y :: t => max x (np_max (y :: t))

/-- `np.min` of a list (the source only applies it to nonempty arrays). -/
def np_min : List ℚ → ℚ
  | [] => 0
  | [x] => x
  | x :: y :: t => min x (np_min (y :: t))

/-- `np.argmax`: index of the FIRST occurrence of the maximum. -/
def np_argmax : List ℚ → Nat
  | [] => 0
  | [_] => 0
  | x :: y :: t => if x < np_max (y :: t) then np_argmax (y :: t) + 1 else 0

/-- `np.argmin`: index of the FIRST occurrence of the minimum. -/
def np_argmin : List ℚ → Nat
  | [] => 0
  | [_] => 0
  | x :: y :: t => if np_min (y :: t) < x then np_argmin (y :: t) + 1 else 0

/-- `np.mean` of a list (the source only applies it to nonempty arrays). -/
def np_mean (l : List ℚ) : ℚ := l.sum / l.length

/-! ### Pattern detector: pump and dump (pattern_detector.py lines 27-92) -/

/-- one row returned by `get_token_price_history`:
`(timestamp, price_usd, volume_usd)`. -/
structure PriceRow where
  timestamp : ℤ
  price_usd : ℚ
  volume_usd : ℚ
deriving DecidableEq, Repr

/-- the record returned by `PatternDetector.detect_pump_dump` when it fires. -/
structure PumpDumpPattern where
  token_address : String
  start_timestamp : ℤ
  peak_timestamp : ℤ
  end_timestamp : ℤ
  start_price : ℚ
  peak_price : ℚ
  end_price : ℚ
  pump_percent : ℚ
  dump_percent : ℚ
  volume_change : ℚ
  wallet_count : Nat
deriving DecidableEq, Repr

/-- `prices = np.array([p[1] for p in price_history])`. -/
def pricesOf (h : List PriceRow) : List ℚ := h.map (·.price_usd)

/-- `volumes = np.array([p[2] for p in price_history])`. -/
def volumesOf (h : List PriceRow) : List ℚ := h.map (·.volume_usd)

/-- `timestamps = np.array([p[0] for p in price_history])`. -/
def timesOf (h : List PriceRow) : List ℤ := h.map (·.timestamp)

/-- `max_price_idx = np.argmax(prices)`: first index of the global maximum
price. -/
def peakIdx (h : List PriceRow) : Nat := np_argmax (pricesOf h)

/-- `max_price = prices[max_price_idx]`: the global maximum price. -/
def peakPrice (h : List PriceRow) : ℚ := (pricesOf h).getD (peakIdx h) 0

/-- `min_price_before`: minimum price before the peak
(the first price if the peak is first). -/
def minBefore (h : List PriceRow) : ℚ :=
  if peakIdx h > 0 then np_min ((pricesOf h).take (peakIdx h))
  else (pricesOf h).getD 0 0

/-- `min_price_before_time` (an index into the prefix is also a valid global
index, as in the source). -/
def startTimeOf (h : List PriceRow) : ℤ :=
  if peakIdx h > 0 then (timesOf h).getD (np_argmin ((pricesOf h).take (peakIdx h))) 0
  else (timesOf h).getD 0 0

/-- `max_price_time = timestamps[max_price_idx]`. -/
def peakTimeOf (h : List PriceRow) : ℤ := (timesOf h).getD (peakIdx h) 0

/-- `min_price_after`: minimum price after the peak
(the last price if the peak is last). -/
def minAfter (h : List PriceRow) : ℚ :=
  if peakIdx h < (pricesOf h).length - 1 then np_min ((pricesOf h).drop (peakIdx h + 1))
  else (pricesOf h).getD ((pricesOf h).length - 1) 0

/-- `min_price_after_time`. -/
def endTimeOf (h : List PriceRow) : ℤ :=
  if peakIdx h < (pricesOf h).length - 1 then
    (timesOf h).getD (np_argmin ((pricesOf h).drop (peakIdx h + 1)) + peakIdx h + 1) 0
  else (timesOf h).getD ((timesOf h).length - 1) 0

/-- `avg_volume_before`: mean volume strictly before the peak index
(`volumes[0]` if the peak is first). -/
def meanVolumeBefore (h : List PriceRow) : ℚ :=
  if peakIdx h > 0 then np_mean ((volumesOf h).take (peakIdx h))
  else (volumesOf h).getD 0 0

/-- `max_volume = np.max(volumes)`. -/
def maxVolume (h : List PriceRow) : ℚ := np_max (volumesOf h)

/-- `pump_percent` as the code guards it:
`((max-min_before)/min_before*100) if min_price_before > 0 else 0`. -/
def codePumpPercent (h : List PriceRow) : ℚ :=
  if minBefore h > 0 then (peakPrice h - minBefore h) / minBefore h * 100 else 0

/-- `dump_percent` as the code guards it:
`((max-min_after)/max*100) if max_price > 0 else 0`. -/
def codeDumpPercent (h : List PriceRow) : ℚ :=
  if peakPrice h > 0 then (peakPrice h - minAfter h) / peakPrice h * 100 else 0

/-- `volume_increase` as the code guards it:
`((max_volume-avg)/avg*100) if avg_volume_before > 0 else 0`. -/
def codeVolumeIncrease (h : List PriceRow) : ℚ :=
  if meanVolumeBefore h > 0 then (maxVolume h - meanVolumeBefore h) / meanVolumeBefore h * 100
  else 0

/-- body of `PatternDetector.detect_pump_dump` after the
`self.db.get_token_price_history` fetch, as a function of the fetched
series (pattern_detector.py lines 31-92).  List indexing `a[i]` of the
source becomes `List.getD` (all indices used are in range there). -/
def detect_pump_dump_core (token_address : String) (price_history : List PriceRow) :
    Option PumpDumpPattern :=
  if price_history.length < 2 then none
  else if codePumpPercent price_history ≥ PUMP_DUMP_PERCENT_THRESHOLD ∧
      codeDumpPercent price_history ≥ PUMP_DUMP_PERCENT_THRESHOLD ∧
      codeVolumeIncrease price_history ≥ 50 then
    some
      { token_address := token_address
        start_timestamp := startTimeOf price_history
        peak_timestamp := peakTimeOf price_history
        end_timestamp := endTimeOf price_history
        start_price := minBefore price_history
        peak_price := peakPrice price_history
        end_price := minAfter price_history
        pump_percent := codePumpPercent price_history
        dump_percent := codeDumpPercent price_history
        volume_change := codeVolumeIncrease price_history
        wallet_count := 0 }
  else none

/-! Spec-side ratios for the pump-dump claim: identical formulas, but with a
ratio treated as 0 exactly when its denominator is 0 (the spec's stated
division-by-zero rule), where the code instead tests `> 0`. -/

/-- spec formula `pump_percent = (max - min_before) / min_before * 100`,
with a zero denominator giving 0. -/
def specPumpPercent (h : List PriceRow) : ℚ :=
  if minBefore h = 0 then 0 else (peakPrice h - minBefore h) / minBefore h * 100

/-- spec formula `dump_percent = (max - min_after) / max * 100`,
with a zero denominator giving 0. -/
def specDumpPercent (h : List PriceRow) : ℚ :=
  if peakPrice h = 0 then 0 else (peakPrice h - minAfter h) / peakPrice h * 100

/-- spec formula
`volume_increase = (max_volume - mean_volume_before_peak) / mean_volume_before_peak * 100`,
with a zero denominator giving 0. -/
def specVolumeIncrease (h : List PriceRow) : ℚ :=
  if meanVolumeBefore h = 0 then 0
  else (maxVolume h - meanVolumeBefore h) / meanVolumeBefore h * 100

/-- the demo series of the spec: [(t0,1.0,100),(t1,2.0,500),(t2,0.5,50)]. -/
def demoSeries : List PriceRow := [⟨0, 1, 100⟩, ⟨1, 2, 500⟩, ⟨2, 1/2, 50⟩]

/-! ### Facts about the numpy primitives -/

theorem np_max_mem : ∀ l : List ℚ, l ≠ [] → np_max l ∈ l := by
  intro l
  induction l with
  | nil => intro h; cases h rfl
  | cons x t ih =>
    cases t with
    | nil => intro _; simp [np_max]
    | cons y u =>
      intro _
      simp only [np_max]
      rcases le_total x (np_max (y :: u)) with hx | hx
      · rw [max_eq_right hx]
        exact List.mem_cons_of_mem x (ih (by simp))
      · rw [max_eq_left hx]
        exact List.mem_cons_self x (y :: u)

theorem le_np_max : ∀ l : List ℚ, ∀ x ∈ l, x ≤ np_max l := by
  intro l
  induction l with
  | nil => intro x hx; simp at hx
  | cons a t ih =>
    cases t with
    | nil =>
      intro x hx
      simp only [List.mem_singleton] at hx
      simp [np_max, hx]
    | cons y u =>
      intro x hx
      simp only [np_max]
      rcases List.mem_cons.mp hx with rfl | hmem
      · exact le_max_left _ _
      · exact le_trans (ih x hmem) (le_max_right _ _)

theorem np_min_mem : ∀ l : List ℚ, l ≠ [] → np_min l ∈ l := by
  intro l
  induction l with
  | nil => intro h; cases h rfl
  | cons x t ih =>
    cases t with
    | nil => intro _; simp [np_min]
    | cons y u =>
      intro _
      simp only [np_min]
      rcases le_total x (np_min (y :: u)) with hx | hx
      · rw [min_eq_left hx]
        exact List.mem_cons_self x (y :: u)
      · rw [min_eq_right hx]
        exact List.mem_cons_of_mem x (ih (by simp))

theorem np_argmax_lt_length : ∀ l : List ℚ, l ≠ [] → np_argmax l < l.length := by
  intro l
  induction l with
  | nil => intro h; cases h rfl
  | cons x t ih =>
    cases t with
    | nil => intro _; simp [np_argmax]
    | cons y u =>
      intro _
      simp only [np_argmax]
      by_cases hx : x < np_max (y :: u)
      · rw [if_pos hx]
        simpa using ih (by simp)
      · rw [if_neg hx]
        simp

theorem getD_np_argmax : ∀ l : List ℚ, l ≠ [] → l.getD (np_argmax l) 0 = np_max l := by
  intro l
  induction l with
  | nil => intro h; cases h rfl
  | cons x t ih =>
    cases t with
    | nil => intro _; simp [np_argmax, np_max]
    | cons y u =>
      intro _
      simp only [np_argmax, np_max]
      by_cases hx : x < np_max (y :: u)
      · rw [if_pos hx, List.getD_cons_succ, ih (by simp), max_eq_right (le_of_lt hx)]
      · rw [if_neg hx, List.getD_cons_zero, max_eq_left (le_of_not_lt hx)]

theorem np_sum_le_length_mul_max : ∀ l : List ℚ, l.sum ≤ (l.length : ℚ) * np_max l := by
  intro l
  induction l with
  | nil => simp
  | cons x t ih =>
    cases t with
    | nil => simp [np_max]
    | cons y u =>
      have h1 : np_max (y :: u) ≤ np_max (x :: y :: u) := by
        simp only [np_max]; exact le_max_right _ _
      have h2 : x ≤ np_max (x :: y :: u) := by
        simp only [np_max]; exact le_max_left _ _
      have h3 : (y :: u).sum ≤ (((y :: u).length : ℚ)) * np_max (y :: u) := ih
      have h4 : (((y :: u).length : ℚ)) * np_max (y :: u) ≤
          (((y :: u).length : ℚ)) * np_max (x :: y :: u) :=
        mul_le_mul_of_nonneg_left h1 (by positivity)
      have h5 : (x :: y :: u).sum = x + (y :: u).sum := by simp
      have h6 : ((x :: y :: u).length : ℚ) = ((y :: u).length : ℚ) + 1 := by
        push_cast [List.length_cons]
        ring
      rw [h5, h6]
      calc x + (y :: u).sum ≤
          np_max (x :: y :: u) + ((y :: u).length : ℚ) * np_max (x :: y :: u) :=
            add_le_add h2 (le_trans h3 h4)
        _ = (((y :: u).length : ℚ) + 1) * np_max (x :: y :: u) := by ring

theorem np_mean_le_np_max (l : List ℚ) (h : l ≠ []) : np_mean l ≤ np_max l := by
  have hlen : 0 < (l.length : ℚ) := by
    have : 0 < l.length := List.length_pos.mpr h
    exact_mod_cast this
  rw [np_mean, div_le_iff₀ hlen]
  calc l.sum ≤ (l.length : ℚ) * np_max l := np_sum_le_length_mul_max l
    _ = np_max l * (l.length : ℚ) := mul_comm _ _

/-- a valid `getD` index selects a member of the list. -/
theorem getD_mem_of_lt {α : Type} [Inhabited α] (l : List α) (i : Nat) (d : α)
    (hi : i < l.length) : l.getD i d ∈ l := by
  rw [List.getD_eq_getElem l d hi]
  exact List.getElem_mem hi

/-! ### Bounds connecting the pump-dump selections -/

theorem minBefore_le_peakPrice (h : List PriceRow) (hne : h ≠ []) :
    minBefore h ≤ peakPrice h := by
  have hpne : pricesOf h ≠ [] := by
    simp only [pricesOf, ne_eq, List.map_eq_nil_iff]
    exact hne
  have hpeak : peakPrice h = np_max (pricesOf h) := getD_np_argmax _ hpne
  rw [minBefore, hpeak]
  by_cases hidx : peakIdx h > 0
  · rw [if_pos hidx]
    have htake : (pricesOf h).take (peakIdx h) ≠ [] := by
      have : 0 < ((pricesOf h).take (peakIdx h)).length := by
        rw [List.length_take]
        exact lt_min hidx (List.length_pos.mpr hpne)
      exact List.ne_nil_of_length_pos this
    have hmem : np_min ((pricesOf h).take (peakIdx h)) ∈ pricesOf h :=
      List.mem_of_mem_take (np_min_mem _ htake)
    exact le_np_max _ _ hmem
  · rw [if_neg hidx]
    have hmem : (pricesOf h).getD 0 0 ∈ pricesOf h :=
      getD_mem_of_lt _ _ _ (List.length_pos.mpr hpne)
    exact le_np_max _ _ hmem

theorem minAfter_le_peakPrice (h : List PriceRow) (hne : h ≠ []) :
    minAfter h ≤ peakPrice h := by
  have hpne : pricesOf h ≠ [] := by
    simp only [pricesOf, ne_eq, List.map_eq_nil_iff]
    exact hne
  have hpeak : peakPrice h = np_max (pricesOf h) := getD_np_argmax _ hpne
  rw [minAfter, hpeak]
  by_cases hidx : peakIdx h < (pricesOf h).length - 1
  · rw [if_pos hidx]
    have hdrop : (pricesOf h).drop (peakIdx h + 1) ≠ [] := by
      have : 0 < ((pricesOf h).length - (peakIdx h + 1)) := by omega
      have hlen : 0 < ((pricesOf h).drop (peakIdx h + 1)).length := by
        rw [List.length_drop]; exact this
      exact List.ne_nil_of_length_pos hlen
    have hmem : np_min ((pricesOf h).drop (peakIdx h + 1)) ∈ pricesOf h :=
      List.mem_of_mem_drop (np_min_mem _ hdrop)
    exact le_np_max _ _ hmem
  · rw [if_neg hidx]
    have hmem : (pricesOf h).getD ((pricesOf h).length - 1) 0 ∈ pricesOf h := by
      refine getD_mem_of_lt _ _ _ ?_
      have : 0 < (pricesOf h).length := List.length_pos.mpr hpne
      omega
    exact le_np_max _ _ hmem

theorem meanVolumeBefore_le_maxVolume (h : List PriceRow) (hne : h ≠ []) :
    meanVolumeBefore h ≤ maxVolume h := by
  have hvne : volumesOf h ≠ [] := by
    simp only [volumesOf, ne_eq, List.map_eq_nil_iff]
    exact hne
  rw [meanVolumeBefore, maxVolume]
  by_cases hidx : peakIdx h > 0
  · rw [if_pos hidx]
    have htake : (volumesOf h).take (peakIdx h) ≠ [] := by
      have : 0 < ((volumesOf h).take (peakIdx h)).length := by
        rw [List.length_take]
        exact lt_min hidx (List.length_pos.mpr hvne)
      exact List.ne_nil_of_length_pos this
    calc np_mean ((volumesOf h).take (peakIdx h)) ≤
        np_max ((volumesOf h).take (peakIdx h)) := np_mean_le_np_max _ htake
      _ ≤ np_max (volumesOf h) :=
          le_np_max _ _ (List.mem_of_mem_take (np_max_mem _ htake))
  · rw [if_neg hidx]
    exact le_np_max _ _ (getD_mem_of_lt _ _ _ (List.length_pos.mpr hvne))

/-! The code guards each ratio with `denominator > 0` while the spec says a
ZERO denominator yields 0.  On a negative denominator the code yields 0 and
the spec formula yields a nonpositive value (the numerator is nonnegative
because the peak dominates), so the two versions agree on every threshold
test against a positive threshold, and agree exactly whenever the pattern
fires. -/

theorem pump_eq_or_nonpos (h : List PriceRow) (hne : h ≠ []) :
    codePumpPercent h = specPumpPercent h ∨
      (codePumpPercent h ≤ 0 ∧ specPumpPercent h ≤ 0) := by
  have hle := minBefore_le_peakPrice h hne
  rcases lt_trichotomy (minBefore h) 0 with hneg | hzero | hpos
  · right
    constructor
    · rw [codePumpPercent, if_neg (by linarith)]
    · rw [specPumpPercent, if_neg (ne_of_lt hneg)]
      have hq : (peakPrice h - minBefore h) / minBefore h ≤ 0 :=
        div_nonpos_iff.mpr (Or.inl ⟨by linarith, le_of_lt hneg⟩)
      linarith
  · left
    rw [codePumpPercent, specPumpPercent, if_neg (by simp [hzero]), if_pos hzero]
  · left
    rw [codePumpPercent, specPumpPercent, if_pos hpos, if_neg (ne_of_gt hpos)]

theorem dump_eq_or_nonpos (h : List PriceRow) (hne : h ≠ []) :
    codeDumpPercent h = specDumpPercent h ∨
      (codeDumpPercent h ≤ 0 ∧ specDumpPercent h ≤ 0) := by
  have hle := minAfter_le_peakPrice h hne
  rcases lt_trichotomy (peakPrice h) 0 with hneg | hzero | hpos
  · right
    constructor
    · rw [codeDumpPercent, if_neg (by linarith)]
    · rw [specDumpPercent, if_neg (ne_of_lt hneg)]
      have hq : (peakPrice h - minAfter h) / peakPrice h ≤ 0 :=
        div_nonpos_iff.mpr (Or.inl ⟨by linarith, le_of_lt hneg⟩)
      linarith
  · left
    rw [codeDumpPercent, specDumpPercent, if_neg (by simp [hzero]), if_pos hzero]
  · left
    rw [codeDumpPercent, specDumpPercent, if_pos hpos, if_neg (ne_of_gt hpos)]

theorem vol_eq_or_nonpos (h : List PriceRow) (hne : h ≠ []) :
    codeVolumeIncrease h = specVolumeIncrease h ∨
      (codeVolumeIncrease h ≤ 0 ∧ specVolumeIncrease h ≤ 0) := by
  have hle := meanVolumeBefore_le_maxVolume h hne
  rcases lt_trichotomy (meanVolumeBefore h) 0 with hneg | hzero | hpos
  · right
    constructor
    · rw [codeVolumeIncrease, if_neg (by linarith)]
    · rw [specVolumeIncrease, if_neg (ne_of_lt hneg)]
      have hq : (maxVolume h - meanVolumeBefore h) / meanVolumeBefore h ≤ 0 :=
        div_nonpos_iff.mpr (Or.inl ⟨by linarith, le_of_lt hneg⟩)
      linarith
  · left
    rw [codeVolumeIncrease, specVolumeIncrease, if_neg (by simp [hzero]), if_pos hzero]
  · left
    rw [codeVolumeIncrease, specVolumeIncrease, if_pos hpos, if_neg (ne_of_gt hpos)]

/-- C5. On any series of at least 2 points, `detect_pump_dump` fires iff the
spec's three ratios (zero-denominator treated as 0) clear the default
thresholds 20 / 20 / 50, and the returned record carries exactly those
ratios; in particular on the series [(t0,1.0,100),(t1,2.0,500),(t2,0.5,50)]
it fires with pump_percent = 100 and dump_percent = 75. -/
theorem detect_pump_dump_meets_spec :
    (∀ (tok : String) (h : List PriceRow), 2 ≤ h.length →
      (((detect_pump_dump_core tok h).isSome ↔
        (20 ≤ specPumpPercent h ∧ 20 ≤ specDumpPercent h ∧ 50 ≤ specVolumeIncrease h)) ∧
      (∀ r : PumpDumpPattern, detect_pump_dump_core tok h = some r →
        r.pump_percent = specPumpPercent h ∧ r.dump_percent = specDumpPercent h ∧
          r.volume_change = specVolumeIncrease h))) ∧
    (∃ r : PumpDumpPattern, detect_pump_dump_core "0xtoken" demoSeries = some r ∧
      r.pump_percent = 100 ∧ r.dump_percent = 75 ∧ 50 ≤ r.volume_change) := by
  constructor
  · intro tok h hlen
    have hne : h ≠ [] := by
      intro hc
      rw [hc] at hlen
      simp at hlen
    have hpump := pump_eq_or_nonpos h hne
    have hdump := dump_eq_or_nonpos h hne
    have hvol := vol_eq_or_nonpos h hne
    have hlt : ¬ h.length < 2 := by omega
    have hcode_iff : (20 ≤ codePumpPercent h ∧ 20 ≤ codeDumpPercent h ∧
        50 ≤ codeVolumeIncrease h) ↔
        (20 ≤ specPumpPercent h ∧ 20 ≤ specDumpPercent h ∧ 50 ≤ specVolumeIncrease h) := by
      constructor
      · rintro ⟨h1, h2, h3⟩
        refine ⟨?_, ?_, ?_⟩
        · rcases hpump with he | ⟨hc1, _⟩
          · rw [← he]; exact h1
          · linarith
        · rcases hdump with he | ⟨hc1, _⟩
          · rw [← he]; exact h2
          · linarith
        · rcases hvol with he | ⟨hc1, _⟩
          · rw [← he]; exact h3
          · linarith
      · rintro ⟨h1, h2, h3⟩
        refine ⟨?_, ?_, ?_⟩
        · rcases hpump with he | ⟨_, hs1⟩
          · rw [he]; exact h1
          · linarith
        · rcases hdump with he | ⟨_, hs1⟩
          · rw [he]; exact h2
          · linarith
        · rcases hvol with he | ⟨_, hs1⟩
          · rw [he]; exact h3
          · linarith
    constructor
    · unfold detect_pump_dump_core
      rw [if_neg hlt]
      by_cases hc : codePumpPercent h ≥ PUMP_DUMP_PERCENT_THRESHOLD ∧
          codeDumpPercent h ≥ PUMP_DUMP_PERCENT_THRESHOLD ∧ codeVolumeIncrease h ≥ 50
      · rw [if_pos hc]
        simp only [Option.isSome_some, true_iff]
        exact hcode_iff.mp (by simpa [PUMP_DUMP_PERCENT_THRESHOLD, ge_iff_le] using hc)
      · rw [if_neg hc]
        simp only [Option.isSome_none, Bool.false_eq_true, false_iff]
        intro hs
        exact hc (by simpa [PUMP_DUMP_PERCENT_THRESHOLD, ge_iff_le] using hcode_iff.mpr hs)
    · intro r hr
      unfold detect_pump_dump_core at hr
      rw [if_neg hlt] at hr
      by_cases hc : codePumpPercent h ≥ PUMP_DUMP_PERCENT_THRESHOLD ∧
          codeDumpPercent h ≥ PUMP_DUMP_PERCENT_THRESHOLD ∧ codeVolumeIncrease h ≥ 50
      · rw [if_pos hc] at hr
        obtain ⟨h1, h2, h3⟩ := hc
        simp only [PUMP_DUMP_PERCENT_THRESHOLD, ge_iff_le] at h1 h2 h3
        obtain rfl := (Option.some_injective _ hr).symm
        refine ⟨?_, ?_, ?_⟩
        · rcases hpump with he | ⟨hc1, _⟩
          · exact he
          · linarith
        · rcases hdump with he | ⟨hc1, _⟩
          · exact he
          · linarith
        · rcases hvol with he | ⟨hc1, _⟩
          · exact he
          · linarith
      · rw [if_neg hc] at hr
        exact absurd hr (by simp)
  · refine ⟨⟨"0xtoken", 0, 1, 2, 1, 2, 1/2, 100, 75, 400, 0⟩, ?_, rfl, rfl, by norm_num⟩
    norm_num [detect_pump_dump_core, codePumpPercent, codeDumpPercent, codeVolumeIncrease,
      minBefore, minAfter, peakPrice, peakIdx, meanVolumeBefore, maxVolume, startTimeOf,
      peakTimeOf, endTimeOf, pricesOf, volumesOf, timesOf, demoSeries, np_argmax, np_max,
      np_min, np_argmin, np_mean, PUMP_DUMP_PERCENT_THRESHOLD]

/-- C5 (witness): the main theorem applied to the demo series. -/
theorem detect_pump_dump_meets_spec_witness :
    ((detect_pump_dump_core "0xtoken" demoSeries).isSome ↔
      (20 ≤ specPumpPercent demoSeries ∧ 20 ≤ specDumpPercent demoSeries ∧
        50 ≤ specVolumeIncrease demoSeries)) :=
  (detect_pump_dump_meets_spec.1 "0xtoken" demoSeries (by norm_num [demoSeries])).1

/-! ### The database layer (database.py)

database.py imports only `sqlite3`, `json` and `DATABASE_PATH`; the names
`datetime` and `timedelta` used by `store_token_price`,
`get_token_price_history` and `get_recent_patterns` are unresolved in that
module, so evaluating them raises a `NameError`, which each method's
`except` clause converts into the failure return value. -/

/-- the names bound at module scope in database.py
(`import sqlite3`, `import json`, `from config import DATABASE_PATH`,
plus the class itself). -/
def database_module_names : List String := ["sqlite3", "json", "DATABASE_PATH", "Database"]

/-- Python name resolution inside database.py: a name not bound at module
scope raises a `NameError`. -/
def resolve_name (n : String) : Except PyErr Unit :=
  if database_module_names.contains n then Except.ok ()
  else Except.error ⟨"NameError: name " ++ n ++ " is not defined"⟩

/-- one row of the `token_price_history` table, whose schema declares
`PRIMARY KEY (token_address, timestamp)` (database.py lines 43-51). -/
structure PriceHistoryRow where
  token_address : String
  timestamp : ℤ
  price_usd : ℚ
  volume_usd : ℚ
deriving DecidableEq, Repr

/-- one row of the `trading_patterns` table (database.py lines 54-68),
fields irrelevant to the claims elided into the detected_at key used by
`get_recent_patterns`. -/
structure TradingPatternRow where
  token_address : String
  pattern_type : String
  detected_at : ℤ
deriving DecidableEq, Repr

/-- the tables of bot_data.db that the claims touch. -/
structure DBState where
  token_price_history : List PriceHistoryRow
  trading_patterns : List TradingPatternRow
deriving DecidableEq, Repr

/-- SQLite `INSERT OR REPLACE` against the composite primary key
`(token_address, timestamp)`: the conflicting row is deleted and the new
row appended. -/
def insert_or_replace_price (rows : List PriceHistoryRow) (r : PriceHistoryRow) :
    List PriceHistoryRow :=
  (rows.filter fun q => ¬(q.token_address = r.token_address ∧ q.timestamp = r.timestamp)) ++ [r]

/-- the `try` body of `Database.store_token_price` (database.py lines
148-155): `timestamp = int(datetime.now().timestamp())` must first resolve
the name `datetime`, then the row is INSERT-OR-REPLACEd.  `now` is the
wall-clock second at the call. -/
def store_token_price_body (db : DBState) (now : ℤ) (token_address : String)
    (price_usd volume_usd : ℚ) : Except PyErr DBState := do
  let _ ← resolve_name "datetime"
  let timestamp := now
  Except.ok { db with token_price_history :=
    (insert_or_replace_price db.token_price_history
      ⟨token_address, timestamp, price_usd, volume_usd⟩) }

/-- `Database.store_token_price` (database.py lines 147-158): the `except`
clause prints the error and returns `False`, leaving the database
unchanged. -/
def store_token_price (db : DBState) (now : ℤ) (token_address : String)
    (price_usd volume_usd : ℚ) : Bool × DBState :=
  match store_token_price_body db now token_address price_usd volume_usd with
  | Except.ok db' => (true, db')
  | Except.error _ => (false, db)

/-- the `try` body of `Database.get_token_price_history` (database.py lines
161-167): the threshold computation must resolve `datetime` and
`timedelta`; then matching rows are returned ordered by timestamp. -/
def get_token_price_history_body (db : DBState) (now : ℤ) (token_address : String)
    (hours : ℤ) : Except PyErr (List PriceRow) := do
  let _ ← resolve_name "datetime"
  let _ ← resolve_name "timedelta"
  let timestamp_threshold := now - hours * 3600
  Except.ok
    (((db.token_price_history.filter fun r =>
        r.token_address = token_address ∧ timestamp_threshold ≤ r.timestamp).map
      fun r => PriceRow.mk r.timestamp r.price_usd r.volume_usd).mergeSort
        fun a b => a.timestamp ≤ b.timestamp)

/-- `Database.get_token_price_history` (database.py lines 160-170): the
`except` clause returns `[]`. -/
def get_token_price_history (db : DBState) (now : ℤ) (token_address : String)
    (hours : ℤ) : List PriceRow :=
  match get_token_price_history_body db now token_address hours with
  | Except.ok rows => rows
  | Except.error _ => []

/-- the `try` body of `Database.get_recent_patterns` (database.py lines
190-206): the threshold computation must resolve `datetime` and
`timedelta`. -/
def get_recent_patterns_body (db : DBState) (now : ℤ) (token_address : Option String)
    (pattern_type : Option String) (hours : ℤ) : Except PyErr (List TradingPatternRow) := do
  let _ ← resolve_name "datetime"
  let _ ← resolve_name "timedelta"
  let timestamp_threshold := now - hours * 3600
  Except.ok
    (((db.trading_patterns.filter fun r =>
        timestamp_threshold ≤ r.detected_at ∧
          (∀ t ∈ token_address, r.token_address = t) ∧
          (∀ t ∈ pattern_type, r.pattern_type = t)).mergeSort
      fun a b => b.detected_at ≤ a.detected_at))

/-- `Database.get_recent_patterns` (database.py lines 189-209): the
`except` clause returns `[]`. -/
def get_recent_patterns (db : DBState) (now : ℤ) (token_address : Option String)
    (pattern_type : Option String) (hours : ℤ) : List TradingPatternRow :=
  match get_recent_patterns_body db now token_address pattern_type hours with
  | Except.ok rows => rows
  | Except.error _ => []

/-- `PatternDetector.detect_pump_dump` (pattern_detector.py lines 27-92):
the fetch through `self.db.get_token_price_history` composed with the
series analysis. -/
def detect_pump_dump (db : DBState) (now : ℤ) (token_address : String) :
    Option PumpDumpPattern :=
  detect_pump_dump_core token_address
    (get_token_price_history db now token_address PUMP_DUMP_TIME_WINDOW)

/-- C7. Because `datetime` and `timedelta` are unresolved names in
database.py, every call to `store_token_price` returns `False` and leaves
the database unchanged, every call to `get_token_price_history` and
`get_recent_patterns` returns `[]`, and consequently `detect_pump_dump`
returns no pattern for every token and every database state. -/
theorem database_datetime_name_error :
    ∀ (db : DBState) (now : ℤ) (tok : String) (p v : ℚ) (hours : ℤ)
      (tokF ptF : Option String),
      store_token_price db now tok p v = (false, db) ∧
      get_token_price_history db now tok hours = [] ∧
      get_recent_patterns db now tokF ptF hours = [] ∧
      detect_pump_dump db now tok = none := by
  intro db now tok p v hours tokF ptF
  refine ⟨rfl, rfl, rfl, ?_⟩
  show detect_pump_dump_core tok [] = none
  rfl

/-- C6 (evaluation at the failing input).  The spec's price-history key
invariant says two writes for the same `(token, timestamp)` leave exactly
one stored row holding the latest write; the code's `store_token_price`
instead raises `NameError` before reaching the INSERT, returns `False`
twice, and stores NOTHING — while the schema's composite primary key
together with `INSERT OR REPLACE` (database.py lines 49 and 151) show
last-write-wins was the intent, so the missing `datetime` import is a code
bug. -/
theorem store_token_price_twice_stores_nothing :
    (store_token_price ⟨[], []⟩ 1700000000 "0xabc" 1 10).1 = false ∧
      (store_token_price (store_token_price ⟨[], []⟩ 1700000000 "0xabc" 1 10).2
        1700000000 "0xabc" 2 20).1 = false ∧
      (store_token_price (store_token_price ⟨[], []⟩ 1700000000 "0xabc" 1 10).2
        1700000000 "0xabc" 2 20).2.token_price_history = [] ∧
      insert_or_replace_price
        (insert_or_replace_price [] ⟨"0xabc", 1700000000, 1, 10⟩)
        ⟨"0xabc", 1700000000, 2, 20⟩ = [⟨"0xabc", 1700000000, 2, 20⟩] := by
  refine ⟨rfl, rfl, rfl, ?_⟩
  simp [insert_or_replace_price]

/-! ### The canonical buy event (blockchain_listener._process_buy_event)
and the alert pipeline (telegram_bot.send_buy_alert) -/

/-- the `buy_event` dict constructed by
`BlockchainListener._process_buy_event` (blockchain_listener.py lines
244-253) and consumed by `TelegramBot.send_buy_alert`. -/
structure BuyEvt where
  tx_hash : String
  buyer : String
  token_address : String
  token_name : String
  token_symbol : String
  eth_amount : ℚ
  token_amount : ℚ
  timestamp : ℚ
deriving DecidableEq, Repr

/-- the token-market record returned by `DexData.get_token_info`
(dex_data.py lines 26-36), reduced to the fields `send_buy_alert` reads. -/
structure TokenInfo where
  market_cap : ℚ
  holders : Option Nat
  dexscreener_url : String
deriving DecidableEq, Repr

/-- the record returned by `WalletAnalyzer.get_wallet_info`, reduced to the
fields `send_buy_alert` reads (symbol, balance, usd_value per holding). -/
structure WalletInfo where
  is_fresh_wallet : Bool
  wallet_age_days : Nat
  token_holdings : List (String × ℚ × ℚ)
  is_swing_trader : Bool
  trading_info : String
deriving DecidableEq, Repr

/-- the placeholder wallet record substituted when
`WalletAnalyzer.get_wallet_info` returns None (telegram_bot.py lines
81-89). -/
def default_wallet_info : WalletInfo :=
  { is_fresh_wallet := false
    wallet_age_days := 999
    token_holdings := []
    is_swing_trader := false
    trading_info := "Unknown" }

/-- external collaborators of `TelegramBot.send_buy_alert`: the market-data
provider, the wallet-reputation provider, the registered-group table and
the Telegram send call (whose per-group failures are caught in the
per-group `try`, telegram_bot.py lines 148-158). -/
structure BotEnv where
  get_token_info : String → Option TokenInfo
  get_eth_price : Option ℚ
  get_wallet_info : String → Option WalletInfo
  registered_groups : List ℤ
  send_ok : ℤ → Bool

/-- one Telegram message as dispatched to a group chat, carrying the alert
fields the claims inspect. -/
structure SentMessage where
  chat_id : ℤ
  tx_hash : String
  eth_amount_usd : ℚ
  wallet : WalletInfo
deriving DecidableEq, Repr

/-- the persistent pipeline state seen by `send_buy_alert`: the
`processed_transactions` dedup set and the stream of dispatched
messages. -/
structure BotState where
  processed : List String
  sent : List SentMessage
deriving DecidableEq, Repr

/-- the broadcast produced for one buy event: one message per registered
group whose Telegram send call succeeds, in table order. -/
def broadcast_of (env : BotEnv) (ev : BuyEvt) : List SentMessage :=
  (env.registered_groups.filter env.send_ok).map fun cid =>
    { chat_id := cid
      tx_hash := ev.tx_hash
      eth_amount_usd := ev.eth_amount * env.get_eth_price.getD 2000
      wallet := (env.get_wallet_info ev.buyer).getD default_wallet_info }

/-- `TelegramBot.send_buy_alert` (telegram_bot.py lines 53-160):
1. drop if `is_transaction_processed`;
2. `mark_transaction_processed` BEFORE any enrichment;
3. return (no alert) if `get_token_info` is None;
4. ETH price defaults to 2000 if `get_eth_price` is falsy;
5. wallet info defaults to the placeholder record if None;
6. send one message per registered group, per-group failures caught. -/
def send_buy_alert (env : BotEnv) (s : BotState) (ev : BuyEvt) : BotState :=
  if s.processed.contains ev.tx_hash then s
  else
    let s1 : BotState := { s with processed := ev.tx_hash :: s.processed }
    match env.get_token_info ev.token_address with
    | none => s1
    | some _ => { s1 with sent := s1.sent ++ broadcast_of env ev }

/-- C3.  Dedup idempotence: feeding the same tx_hash through
`send_buy_alert` twice produces exactly one downstream broadcast — the
first (successful) handling marks the hash processed, and the second feed
is dropped before any alert is sent, leaving the state untouched. -/
theorem send_buy_alert_dedup_idempotent :
    ∀ (env : BotEnv) (s0 : BotState) (ev : BuyEvt) (ti : TokenInfo),
      s0.processed.contains ev.tx_hash = false →
      env.get_token_info ev.token_address = some ti →
      send_buy_alert env (send_buy_alert env s0 ev) ev = send_buy_alert env s0 ev ∧
      (send_buy_alert env s0 ev).processed.contains ev.tx_hash = true ∧
      (send_buy_alert env s0 ev).sent = s0.sent ++ broadcast_of env ev ∧
      (send_buy_alert env (send_buy_alert env s0 ev) ev).sent =
        s0.sent ++ broadcast_of env ev := by
  intro env s0 ev ti h0 hti
  have h1 : send_buy_alert env s0 ev =
      { s0 with
        processed := ev.tx_hash :: s0.processed
        sent := s0.sent ++ broadcast_of env ev } := by
    unfold send_buy_alert
    rw [if_neg (by rw [h0]; simp), hti]
  have hmem : ({ s0 with
      processed := ev.tx_hash :: s0.processed
      sent := s0.sent ++ broadcast_of env ev } : BotState).processed.contains
        ev.tx_hash = true := by
    simp [List.contains_cons]
  have h2 : send_buy_alert env (send_buy_alert env s0 ev) ev = send_buy_alert env s0 ev := by
    rw [h1]
    unfold send_buy_alert
    rw [if_pos hmem]
  refine ⟨h2, ?_, ?_, ?_⟩
  · rw [h1]; exact hmem
  · rw [h1]
  · rw [h2, h1]

/-- a concrete environment for the C3 witness: market data known, wallet
lookup known, one registered group, Telegram sends succeeding. -/
def witnessEnv : BotEnv :=
  { get_token_info := fun _ => some ⟨1000, none, "https://dexscreener.com/e/p"⟩
    get_eth_price := some 2500
    get_wallet_info := fun _ => some ⟨true, 3, [], false, "2 trades"⟩
    registered_groups := [77]
    send_ok := fun _ => true }

/-- a concrete buy event for the C3 witness. -/
def witnessEvt : BuyEvt :=
  { tx_hash := "0xaaa"
    buyer := "0xb1"
    token_address := "0xt1"
    token_name := "Tok"
    token_symbol := "TK"
    eth_amount := 2
    token_amount := 1000
    timestamp := 1700000000 }

/-- C3 (witness): the dedup theorem applied to a concrete environment,
state and event. -/
theorem send_buy_alert_dedup_idempotent_witness :
    send_buy_alert witnessEnv (send_buy_alert witnessEnv ⟨[], []⟩ witnessEvt) witnessEvt =
        send_buy_alert witnessEnv ⟨[], []⟩ witnessEvt ∧
      (send_buy_alert witnessEnv ⟨[], []⟩ witnessEvt).processed.contains
        witnessEvt.tx_hash = true ∧
      (send_buy_alert witnessEnv ⟨[], []⟩ witnessEvt).sent =
        (⟨[], []⟩ : BotState).sent ++ broadcast_of witnessEnv witnessEvt ∧
      (send_buy_alert witnessEnv (send_buy_alert witnessEnv ⟨[], []⟩ witnessEvt)
        witnessEvt).sent = (⟨[], []⟩ : BotState).sent ++ broadcast_of witnessEnv witnessEvt :=
  send_buy_alert_dedup_idempotent witnessEnv ⟨[], []⟩ witnessEvt
    ⟨1000, none, "https://dexscreener.com/e/p"⟩ rfl rfl

/-- an environment whose market-data lookup returns None for every token
but which has a registered group and working sends. -/
def dropEnv : BotEnv :=
  { get_token_info := fun _ => none
    get_eth_price := some 2500
    get_wallet_info := fun _ => some ⟨true, 3, [], false, "2 trades"⟩
    registered_groups := [77]
    send_ok := fun _ => true }

/-- an environment whose wallet-reputation and ETH-price lookups both fail
(return None) while market data is available. -/
def defaultsEnv : BotEnv :=
  { get_token_info := fun _ => some ⟨1000, none, "https://dexscreener.com/e/p"⟩
    get_eth_price := none
    get_wallet_info := fun _ => none
    registered_groups := [77, 88]
    send_ok := fun _ => true }

/-- C4 (counterexample).  The spec claims a failed market-data lookup never
causes the Buy event to be dropped; but when `get_token_info` returns None
`send_buy_alert` returns at telegram_bot.py line 69 before composing any
message, so with a registered group present NO alert is sent for the event
(the hash is nevertheless marked processed). -/
theorem token_info_none_drops_buy_event :
    dropEnv.get_token_info witnessEvt.token_address = none ∧
      dropEnv.registered_groups = [77] ∧
      (send_buy_alert dropEnv ⟨[], []⟩ witnessEvt).sent = [] ∧
      (send_buy_alert dropEnv ⟨[], []⟩ witnessEvt).processed = [witnessEvt.tx_hash] := by
  refine ⟨rfl, rfl, ?_, ?_⟩ <;> rfl

/-- C4 (amended).  A failed or None-returning WALLET-REPUTATION lookup (and
a failed ETH-price lookup) never drops the Buy event: the alert is still
broadcast to the registered groups with the placeholder wallet record and
the 2000-USD fallback ETH price; a None-returning MARKET-DATA
(`get_token_info`) lookup, however, drops the event — no alert is sent,
though the transaction is still marked processed. -/
theorem enrichment_failure_handling :
    (∀ (env : BotEnv) (s : BotState) (ev : BuyEvt) (ti : TokenInfo),
      s.processed.contains ev.tx_hash = false →
      env.get_token_info ev.token_address = some ti →
      env.get_wallet_info ev.buyer = none →
      env.get_eth_price = none →
      send_buy_alert env s ev =
        { processed := ev.tx_hash :: s.processed
          sent := s.sent ++ (env.registered_groups.filter env.send_ok).map fun cid =>
            { chat_id := cid
              tx_hash := ev.tx_hash
              eth_amount_usd := ev.eth_amount * 2000
              wallet := default_wallet_info } }) ∧
    (∀ (env : BotEnv) (s : BotState) (ev : BuyEvt),
      s.processed.contains ev.tx_hash = false →
      env.get_token_info ev.token_address = none →
      send_buy_alert env s ev = { processed := ev.tx_hash :: s.processed, sent := s.sent }) := by
  constructor
  · intro env s ev ti h0 hti hw hp
    unfold send_buy_alert
    rw [if_neg (by rw [h0]; simp), hti]
    simp only [broadcast_of, hw, hp, Option.getD_none]
  · intro env s ev h0 hti
    unfold send_buy_alert
    rw [if_neg (by rw [h0]; simp), hti]

/-- C4 (witness): both amended branches applied to concrete environments,
a clean state and a concrete event. -/
theorem enrichment_failure_handling_witness :
    send_buy_alert defaultsEnv ⟨[], []⟩ witnessEvt =
      { processed := witnessEvt.tx_hash :: ([] : List String)
        sent := [] ++ (defaultsEnv.registered_groups.filter defaultsEnv.send_ok).map fun cid =>
          { chat_id := cid
            tx_hash := witnessEvt.tx_hash
            eth_amount_usd := witnessEvt.eth_amount * 2000
            wallet := default_wallet_info } } ∧
    send_buy_alert dropEnv ⟨[], []⟩ witnessEvt =
      { processed := witnessEvt.tx_hash :: ([] : List String), sent := [] } :=
  ⟨enrichment_failure_handling.1 defaultsEnv ⟨[], []⟩ witnessEvt
      ⟨1000, none, "https://dexscreener.com/e/p"⟩ rfl rfl rfl rfl,
    enrichment_failure_handling.2 dropEnv ⟨[], []⟩ witnessEvt rfl rfl⟩

/-! ### Block scanning (blockchain_listener.py lines 96-197)

The chain client is an explicit environment of fallible calls; every
`try/except` of the source is an explicit `match` on the `Except` result,
so which errors can propagate to which handler is part of the
definitions. -/

def UNISWAP_V2_ROUTER : String := "0x7a250d5630B4cF539739dF2C5dAcb4c659F2488D"

/-- Python `str.lower()`, characterwise (identical to the source's use on
ASCII hex addresses). -/
def py_lower (s : String) : String := ⟨s.data.map Char.toLower⟩

/-- the per-token pair metadata stored in `self.pairs`
(blockchain_listener.py lines 75-81), minus the contract handle. -/
structure PairInfo where
  token_address : String
  token_name : String
  token_symbol : String
  token_decimals : Nat
deriving DecidableEq, Repr

/-- one receipt log entry: its emitting address, and the decode of
`Swap().process_log` (None when the log is not a Swap event — the inner
`try` at blockchain_listener.py lines 176-193 swallows that case). -/
structure LogEntry where
  address : String
  swap : Option SwapArgs
deriving DecidableEq, Repr

/-- one block transaction, reduced to the fields the scanner reads. -/
structure Tx where
  hash : String
  toAddr : Option String
  fromAddr : String
deriving DecidableEq, Repr

/-- the chain client: `get_block` and `get_transaction_receipt` may raise. -/
structure ChainEnv where
  get_block : Nat → Except PyErr (List Tx)
  get_receipt : String → Except PyErr (List LogEntry)

/-- `BlockchainListener._process_buy_event` (blockchain_listener.py lines
213-274): builds the buy-event record; the reference-asset amount divides
by 10^18 and the token amount by 10^token_decimals.  Its optional
price-store/pattern branch and the callback call are elided into the
returned event (the whole method body is wrapped in `try/except`, so it
never propagates an exception). -/
def process_buy_event (now : ℚ) (p : PairInfo) (args : SwapArgs) (txh frm : String) :
    BuyEvt :=
  let eth_amount : ℚ :=
    if args.amount0In > 0 ∧ args.amount1Out > 0 then (args.amount0In : ℚ) / 10 ^ 18
    else if args.amount1In > 0 ∧ args.amount0Out > 0 then (args.amount1In : ℚ) / 10 ^ 18
    else 0
  let token_amount : ℚ :=
    if args.amount0In > 0 ∧ args.amount1Out > 0 then
      (args.amount1Out : ℚ) / 10 ^ p.token_decimals
    else if args.amount1In > 0 ∧ args.amount0Out > 0 then
      (args.amount0Out : ℚ) / 10 ^ p.token_decimals
    else 0
  { tx_hash := txh
    buyer := frm
    token_address := p.token_address
    token_name := p.token_name
    token_symbol := p.token_symbol
    eth_amount := eth_amount
    token_amount := token_amount
    timestamp := now }

/-- the per-log step of `check_block_for_swaps` (blockchain_listener.py
lines 169-193): skip logs from unregistered pairs, swallow decode
failures, classify with `_is_token_buy`, emit on Buy. -/
def process_log (now : ℚ) (pairs : List (String × PairInfo)) (txh frm : String)
    (log : LogEntry) : List BuyEvt :=
  match pairs.lookup (py_lower log.address) with
  | none => []
  | some p =>
    match log.swap with
    | none => []
    | some args =>
      if is_token_buy args then [process_buy_event now p args txh frm] else []

/-- the per-transaction step of `check_block_for_swaps` (blockchain_listener.py
lines 162-193): only router-bound transactions are inspected; fetching the
receipt may raise, which aborts the block scan (events emitted earlier in
the block were already handed to the callback and are kept). -/
def process_tx (env : ChainEnv) (now : ℚ) (pairs : List (String × PairInfo)) (tx : Tx) :
    List BuyEvt × Option PyErr :=
  match tx.toAddr with
  | none => ([], none)
  | some a =>
    if py_lower a = py_lower UNISWAP_V2_ROUTER then
      match env.get_receipt tx.hash with
      | Except.error e => ([], some e)
      | Except.ok logs => ((logs.map (process_log now pairs tx.hash tx.fromAddr)).flatten, none)
    else ([], none)

/-- sequential transaction processing within one block: stops at the first
uncaught error, keeping the events already emitted. -/
def process_txs (env : ChainEnv) (now : ℚ) (pairs : List (String × PairInfo)) :
    List Tx → List BuyEvt × Option PyErr
  | [] => ([], none)
  | tx :: rest =>
    match process_tx env now pairs tx with
    | (evs, some e) => (evs, some e)
    | (evs, none) =>
      let out := process_txs env now pairs rest
      (evs ++ out.1, out.2)

/-- the `try` body of `check_block_for_swaps` (blockchain_listener.py lines
159-193): fetch the block, then walk its transactions. -/
def check_block_body (env : ChainEnv) (now : ℚ) (pairs : List (String × PairInfo))
    (n : Nat) : List BuyEvt × Option PyErr :=
  match env.get_block n with
  | Except.error e => ([], some e)
  | Except.ok txs => process_txs env now pairs txs

/-- `BlockchainListener.check_block_for_swaps` (blockchain_listener.py lines
155-197): BOTH `except` clauses (`BlockNotFound` and bare `Exception`)
merely print, so the method catches every exception raised while scanning
the block and always returns normally. -/
def check_block_for_swaps (env : ChainEnv) (now : ℚ) (pairs : List (String × PairInfo))
    (n : Nat) : List BuyEvt :=
  (check_block_body env now pairs n).1

/-- the block range scanned by one tick:
`range(last_block + 1, current_block + 1)`. -/
def scan_blocks (last cur : Nat) : List Nat := List.range' (last + 1) (cur - last)

/-- the blocks-and-advance portion of one tick of `listen_for_swaps`
(blockchain_listener.py lines 110-125) BEFORE the loop-level `except`: read
the chain height (which may raise), scan each new block with
`check_block_for_swaps`, then set `last_block = current_block`. -/
def listen_tick_body (env : ChainEnv) (now : ℚ) (pairs : List (String × PairInfo))
    (last : Nat) (height : Except PyErr Nat) : Except PyErr (Nat × List BuyEvt) :=
  match height with
  | Except.error e => Except.error e
  | Except.ok cur =>
    if cur > last then
      Except.ok (cur, ((scan_blocks last cur).map (check_block_for_swaps env now pairs)).flatten)
    else
      Except.ok (last, [])

/-- one tick of `listen_for_swaps` with its loop-level `except` clause
(blockchain_listener.py lines 129-131): any exception reaching the loop
body is caught, logged, and followed by the backoff sleep, leaving
`last_block` unchanged. -/
def listen_tick (env : ChainEnv) (now : ℚ) (pairs : List (String × PairInfo))
    (last : Nat) (height : Except PyErr Nat) : Nat × List BuyEvt :=
  match listen_tick_body env now pairs last height with
  | Except.ok r => r
  | Except.error _ => (last, [])

/-- a chain on which fetching block 1 raises and every other block is empty. -/
def failingChain : ChainEnv :=
  { get_block := fun n =>
      if n = 1 then Except.error ⟨"node unreachable"⟩ else Except.ok []
    get_receipt := fun _ => Except.ok [] }

/-- C2 (counterexample).  With `last_scanned = 0` and `h_now = 2`, fetching
block `k = 1` raises while that block is scanned, yet the tick still
advances the high-water mark to 2 (not ≤ k−1 = 0), because
`check_block_for_swaps` catches every exception internally; block 1 is
absent from the next tick's range, so it is never scanned again. -/
theorem scan_error_still_advances_counterexample :
    failingChain.get_block 1 = Except.error ⟨"node unreachable"⟩ ∧
      1 ∈ scan_blocks 0 2 ∧
      (listen_tick failingChain 0 [] 0 (Except.ok 2)).1 = 2 ∧
      ¬ (listen_tick failingChain 0 [] 0 (Except.ok 2)).1 ≤ 0 ∧
      1 ∉ scan_blocks (listen_tick failingChain 0 [] 0 (Except.ok 2)).1 5 := by
  refine ⟨rfl, ?_, rfl, by show ¬ (2:Nat) ≤ 0; norm_num, ?_⟩
  · show 1 ∈ List.range' 1 2
    simp [List.range']
  · show 1 ∉ List.range' 3 3
    simp [List.range']

/-- C2 (amended).  Exceptions raised while scanning a block are caught
inside `check_block_for_swaps` and never reach the tick loop, so whenever
the height read succeeds the tick advances `last_block` to `h_now`
REGARDLESS of any per-block failure (the failed block is NOT retried);
only an exception reaching the tick body itself — the height read — leaves
`last_block` unchanged, in which case no block of the range is marked
scanned. -/
theorem listen_tick_advance_characterization :
    (∀ (env : ChainEnv) (now : ℚ) (pairs : List (String × PairInfo)) (last cur : Nat),
      listen_tick env now pairs last (Except.ok cur) =
        if last < cur then
          (cur, ((scan_blocks last cur).map (check_block_for_swaps env now pairs)).flatten)
        else (last, [])) ∧
    (∀ (env : ChainEnv) (now : ℚ) (pairs : List (String × PairInfo)) (last : Nat)
      (e : PyErr), listen_tick env now pairs last (Except.error e) = (last, [])) := by
  constructor
  · intro env now pairs last cur
    unfold listen_tick listen_tick_body
    by_cases h : cur > last
    · simp only [if_pos h]
    · simp only [if_neg h]
  · intro env now pairs last e
    rfl

/-! ### The scanning loop `listen_for_swaps` (blockchain_listener.py lines
96-131) and `stop()` (lines 151-153)

The loop is modelled against an explicit schedule of tick inputs; each
tick input carries the (fallible) chain-height read of that iteration and
whether `stop()` is called at some point during that iteration's body or
sleep.  The loop observes the `running` flag only at the `while` test. -/

/-- mutable loop state: the `self.running` flag and `last_block`. -/
structure LState where
  running : Bool
  last_block : Nat
deriving DecidableEq, Repr

instance exceptDecEq {α β : Type} [DecidableEq α] [DecidableEq β] :
    DecidableEq (Except α β) := fun x y =>
  match x, y with
  | Except.ok a, Except.ok b =>
    if h : a = b then isTrue (by rw [h])
    else isFalse (by intro hc; injection hc with h2; exact h h2)
  | Except.ok _, Except.error _ => isFalse (by intro hc; exact Except.noConfusion hc)
  | Except.error _, Except.ok _ => isFalse (by intro hc; exact Except.noConfusion hc)
  | Except.error a, Except.error b =>
    if h : a = b then isTrue (by rw [h])
    else isFalse (by intro hc; injection hc with h2; exact h h2)

/-- the external input to one loop iteration. -/
structure TickInput where
  height : Except PyErr Nat
  stop_during : Bool
deriving DecidableEq, Repr

/-- how a run of the loop ended. -/
inductive ExitReason where
  | stopSignal
  | scheduleEnd
  | crashed (e : PyErr)
deriving DecidableEq, Repr

/-- `stop()` lands during an iteration: the flag is cleared, to be observed
at the NEXT `while` test. -/
def apply_stop (s : LState) (t : TickInput) : LState :=
  if t.stop_during then { s with running := false } else s

/-- the `while self.running` loop of `listen_for_swaps`, run against a
finite schedule of tick inputs: the flag is tested at the top of each
iteration; an iteration that runs executes one full `listen_tick`
(whose loop-level `except` already absorbs every tick exception) and
appends the tick's emitted events. -/
def listen_loop (env : ChainEnv) (now : ℚ) (pairs : List (String × PairInfo)) :
    List TickInput → LState → LState × List BuyEvt × ExitReason
  | [], s => (s, [], ExitReason.scheduleEnd)
  | t :: rest, s =>
    if s.running then
      let r := listen_tick env now pairs s.last_block t.height
      let s' := apply_stop { running := s.running, last_block := r.1 } t
      let out := listen_loop env now pairs rest s'
      (out.1, r.2 ++ out.2.1, out.2.2)
    else (s, [], ExitReason.stopSignal)

/-- C10.  (i) No run of the scanning loop ever ends with an uncaught
exception — every tick error is absorbed by the loop-level `except` inside
`listen_tick`; (ii) if the loop is running and `stop()` is never called,
the loop outlives any schedule, whatever errors occur; (iii) the flag is
checked only at the top of an iteration: an iteration that has started
completes its full tick (its events are emitted) even if `stop()` arrives
during it, and the loop exits at the NEXT top-of-iteration test. -/
theorem listen_loop_terminates_only_by_stop :
    (∀ (env : ChainEnv) (now : ℚ) (pairs : List (String × PairInfo))
      (sched : List TickInput) (s : LState) (e : PyErr),
      (listen_loop env now pairs sched s).2.2 ≠ ExitReason.crashed e) ∧
    (∀ (env : ChainEnv) (now : ℚ) (pairs : List (String × PairInfo))
      (sched : List TickInput) (s : LState),
      s.running = true → (∀ t ∈ sched, t.stop_during = false) →
      (listen_loop env now pairs sched s).2.2 = ExitReason.scheduleEnd) ∧
    (∀ (env : ChainEnv) (now : ℚ) (pairs : List (String × PairInfo))
      (t t' : TickInput) (rest : List TickInput) (s : LState),
      s.running = true → t.stop_during = true →
      listen_loop env now pairs (t :: t' :: rest) s =
        ({ running := false,
           last_block := (listen_tick env now pairs s.last_block t.height).1 },
         (listen_tick env now pairs s.last_block t.height).2,
         ExitReason.stopSignal)) := by
  refine ⟨?_, ?_, ?_⟩
  · intro env now pairs sched
    induction sched with
    | nil => intro s e; simp [listen_loop]
    | cons t rest ih =>
      intro s e
      by_cases hr : s.running
      · simp only [listen_loop, if_pos hr]
        exact ih _ e
      · simp only [listen_loop, if_neg hr]
        intro hc
        exact ExitReason.noConfusion hc
  · intro env now pairs sched
    induction sched with
    | nil => intro s _ _; simp [listen_loop]
    | cons t rest ih =>
      intro s hr hstop
      simp only [listen_loop, if_pos hr]
      refine ih _ ?_ ?_
      · have ht : t.stop_during = false := hstop t (by simp)
        simp [apply_stop, ht, hr]
      · intro u hu
        exact hstop u (List.mem_cons_of_mem t hu)
  · intro env now pairs t t' rest s hr hstop
    simp only [listen_loop, if_pos hr]
    have hs' : apply_stop
        { running := s.running,
          last_block := (listen_tick env now pairs s.last_block t.height).1 } t =
        { running := false,
          last_block := (listen_tick env now pairs s.last_block t.height).1 } := by
      simp [apply_stop, hstop]
    rw [hs']
    simp [listen_loop]

/-- a trivial chain for the C10 witness: every block read succeeds and is
empty. -/
def quietChain : ChainEnv :=
  { get_block := fun _ => Except.ok []
    get_receipt := fun _ => Except.ok [] }

/-- C10 (witness): the loop theorem applied to a concrete chain, schedule
and state — a stop during the first tick is observed at the second
iteration's top-of-loop test, and without a stop the loop outlives the
schedule. -/
theorem listen_loop_terminates_only_by_stop_witness :
    (listen_loop quietChain 0 [] [⟨Except.ok 0, true⟩, ⟨Except.ok 5, false⟩]
      ⟨true, 0⟩).2.2 ≠ ExitReason.crashed ⟨"boom"⟩ ∧
    (listen_loop quietChain 0 [] [⟨Except.ok 3, false⟩] ⟨true, 0⟩).2.2 =
      ExitReason.scheduleEnd ∧
    listen_loop quietChain 0 [] [⟨Except.ok 0, true⟩, ⟨Except.ok 5, false⟩] ⟨true, 0⟩ =
      ({ running := false,
         last_block := (listen_tick quietChain 0 [] 0 (Except.ok 0)).1 },
       (listen_tick quietChain 0 [] 0 (Except.ok 0)).2,
       ExitReason.stopSignal) :=
  ⟨listen_loop_terminates_only_by_stop.1 quietChain 0 []
      [⟨Except.ok 0, true⟩, ⟨Except.ok 5, false⟩] ⟨true, 0⟩ ⟨"boom"⟩,
    listen_loop_terminates_only_by_stop.2.1 quietChain 0 [] [⟨Except.ok 3, false⟩]
      ⟨true, 0⟩ rfl (by intro t ht; simp at ht; rw [ht]),
    listen_loop_terminates_only_by_stop.2.2 quietChain 0 [] ⟨Except.ok 0, true⟩
      ⟨Except.ok 5, false⟩ [] ⟨true, 0⟩ rfl rfl⟩

/-! ### Pair registry (blockchain_listener.py lines 52-93) -/

/-- the factory / ERC-20 read-only calls used by `initialize_pairs`;
each `.call()` may raise. -/
structure FactoryEnv where
  get_pair : String → Except PyErr String
  token_name : String → Except PyErr String
  token_symbol : String → Except PyErr String
  token_decimals : String → Except PyErr Nat

/-- the `try` body of one iteration of `initialize_pairs` (blockchain_listener.py
lines 57-83): factory lookup, the zero-address / falsy guard at line 64,
then the three metadata calls; returns the registry entry keyed by the
lowercased pair address, or `none` when the guard skips the token. -/
def init_one (env : FactoryEnv) (token_address : String) :
    Except PyErr (Option (String × PairInfo)) :=
  match env.get_pair token_address with
  | Except.error e => Except.error e
  | Except.ok pair_address =>
    if pair_address ≠ "" ∧ pair_address ≠ ZERO_ADDRESS then
      match env.token_name token_address with
      | Except.error e => Except.error e
      | Except.ok name =>
        match env.token_symbol token_address with
        | Except.error e => Except.error e
        | Except.ok symbol =>
          match env.token_decimals token_address with
          | Except.error e => Except.error e
          | Except.ok decimals =>
            Except.ok (some (py_lower pair_address,
              { token_address := token_address
                token_name := name
                token_symbol := symbol
                token_decimals := decimals }))
    else Except.ok none

/-- Python dict assignment `self.pairs[k] = v`: overwrite in place if the
key exists, else append (insertion order preserved). -/
def dict_insert (m : List (String × PairInfo)) (k : String) (v : PairInfo) :
    List (String × PairInfo) :=
  if m.any (fun p => p.1 = k) then m.map fun p => if p.1 = k then (k, v) else p
  else m ++ [(k, v)]

/-- `BlockchainListener.initialize_pairs` (blockchain_listener.py lines
52-85) starting from the registry `pairs0`: each token runs in its own
`try/except`, so a throwing lookup skips just that token. -/
def initialize_pairs_from (env : FactoryEnv) (pairs0 : List (String × PairInfo))
    (tokens : List String) : List (String × PairInfo) :=
  tokens.foldl
    (fun pairs t =>
      match init_one env t with
      | Except.ok (some kv) => dict_insert pairs kv.1 kv.2
      | Except.ok none => pairs
      | Except.error _ => pairs)
    pairs0

/-- the constructor's normalization
`[addr.lower() for addr in token_addresses if addr]`
(blockchain_listener.py lines 34 and 91). -/
def normalize_tokens (tokens : List String) : List String :=
  (tokens.filter fun a => a ≠ "").map py_lower

/-- `BlockchainListener.update_monitored_tokens` (blockchain_listener.py
lines 87-93): re-normalizes the token list, RESETS `self.pairs = {}` and
re-initializes — the prior registry (first argument) is discarded
entirely. -/
def update_monitored_tokens (env : FactoryEnv) (_pairs : List (String × PairInfo))
    (tokens : List String) : List (String × PairInfo) :=
  initialize_pairs_from env [] (normalize_tokens tokens)

/-- does the token survive `initialize_pairs` (lookup succeeds and the pair
address passes the zero-address guard)? -/
def token_ok (env : FactoryEnv) (t : String) : Bool :=
  match init_one env t with
  | Except.ok (some _) => true
  | _ => false

/-- the registry entry a surviving token contributes. -/
def entry_of (env : FactoryEnv) (t : String) : String × PairInfo :=
  match init_one env t with
  | Except.ok (some kv) => kv
  | _ => ("", ⟨"", "", "", 0⟩)

theorem dict_insert_fresh (m : List (String × PairInfo)) (k : String) (v : PairInfo)
    (h : ∀ p ∈ m, p.1 ≠ k) : dict_insert m k v = m ++ [(k, v)] := by
  unfold dict_insert
  rw [if_neg]
  simp only [List.any_eq_true, decide_eq_true_eq, not_exists]
  intro p
  rw [not_and]
  exact h p

theorem initialize_pairs_from_eq (env : FactoryEnv) :
    ∀ (tokens : List String) (acc : List (String × PairInfo)),
      (((tokens.filter (token_ok env)).map fun t => (entry_of env t).1).Nodup) →
      (∀ t ∈ tokens, token_ok env t = true →
        ∀ p ∈ acc, p.1 ≠ (entry_of env t).1) →
      initialize_pairs_from env acc tokens =
        acc ++ (tokens.filter (token_ok env)).map (entry_of env) := by
  intro tokens
  induction tokens with
  | nil => intro acc _ _; simp [initialize_pairs_from]
  | cons t rest ih =>
    intro acc hnd hfresh
    cases hinit : init_one env t with
    | error e =>
      have hok : token_ok env t = false := by simp [token_ok, hinit]
      have hstep : initialize_pairs_from env acc (t :: rest) =
          initialize_pairs_from env acc rest := by
        simp [initialize_pairs_from, hinit]
      rw [hstep]
      rw [List.filter_cons_of_neg (by simp [hok])] at hnd ⊢
      exact ih acc hnd fun u hu => hfresh u (List.mem_cons_of_mem t hu)
    | ok o =>
      cases o with
      | none =>
        have hok : token_ok env t = false := by simp [token_ok, hinit]
        have hstep : initialize_pairs_from env acc (t :: rest) =
            initialize_pairs_from env acc rest := by
          simp [initialize_pairs_from, hinit]
        rw [hstep]
        rw [List.filter_cons_of_neg (by simp [hok])] at hnd ⊢
        exact ih acc hnd fun u hu => hfresh u (List.mem_cons_of_mem t hu)
      | some kv =>
        have hok : token_ok env t = true := by simp [token_ok, hinit]
        have hent : entry_of env t = kv := by simp [entry_of, hinit]
        have hstep : initialize_pairs_from env acc (t :: rest) =
            initialize_pairs_from env (dict_insert acc kv.1 kv.2) rest := by
          simp [initialize_pairs_from, hinit]
        rw [List.filter_cons_of_pos (by simp [hok])] at hnd ⊢
        rw [List.map_cons, List.nodup_cons] at hnd
        obtain ⟨hket, hndrest⟩ := hnd
        have hfr : ∀ p ∈ acc, p.1 ≠ kv.1 := by
          intro p hp
          have := hfresh t (List.mem_cons_self t rest) hok p hp
          rwa [hent] at this
        rw [hstep, dict_insert_fresh acc kv.1 kv.2 hfr]
        have hfresh' : ∀ u ∈ rest, token_ok env u = true →
            ∀ p ∈ acc ++ [(kv.1, kv.2)], p.1 ≠ (entry_of env u).1 := by
          intro u hu hoku p hp
          rcases List.mem_append.mp hp with hpa | hpk
          · exact hfresh u (List.mem_cons_of_mem t hu) hoku p hpa
          · simp only [List.mem_singleton] at hpk
            subst hpk
            intro hc
            apply hket
            rw [hent, hc]
            exact List.mem_map_of_mem _ (List.mem_filter.mpr ⟨hu, hoku⟩)
        have := ih (acc ++ [(kv.1, kv.2)]) hndrest hfresh'
        rw [this, List.map_cons, hent]
        simp

/-- C9.  Pair-registry construction tolerates partial failure: provided the
surviving tokens map to distinct pair keys (as on chain), the registry
built from an empty dict is EXACTLY the entries of the tokens whose
factory lookup returned a nonzero pair address and whose metadata calls
all succeeded, in order — every failing or zero-address token is omitted
while every other token is registered; a throwing factory call and a
zero-address result both disqualify a token; and `update_monitored_tokens`
rebuilds the registry from scratch, retaining nothing of the prior pair
set. -/
theorem pair_registry_partial_failure :
    (∀ (env : FactoryEnv) (tokens : List String),
      (((tokens.filter (token_ok env)).map fun t => (entry_of env t).1).Nodup) →
      initialize_pairs_from env [] tokens =
        (tokens.filter (token_ok env)).map (entry_of env)) ∧
    (∀ (env : FactoryEnv) (t : String),
      token_ok env t = true ↔
        ∃ pa, env.get_pair t = Except.ok pa ∧ pa ≠ "" ∧ pa ≠ ZERO_ADDRESS ∧
          (∃ nm, env.token_name t = Except.ok nm) ∧
          (∃ sy, env.token_symbol t = Except.ok sy) ∧
          (∃ dc, env.token_decimals t = Except.ok dc)) ∧
    (∀ (env : FactoryEnv) (old1 old2 : List (String × PairInfo)) (tokens : List String),
      update_monitored_tokens env old1 tokens = update_monitored_tokens env old2 tokens) := by
  refine ⟨?_, ?_, ?_⟩
  · intro env tokens hnd
    simpa using initialize_pairs_from_eq env tokens [] hnd (by simp)
  · intro env t
    constructor
    · intro hok
      cases hp : env.get_pair t with
      | error e => simp [token_ok, init_one, hp] at hok
      | ok pa =>
        by_cases hg : pa ≠ "" ∧ pa ≠ ZERO_ADDRESS
        · cases hn : env.token_name t with
          | error e => simp [token_ok, init_one, hp, hn, hg.1, hg.2] at hok
          | ok nm =>
            cases hs : env.token_symbol t with
            | error e => simp [token_ok, init_one, hp, hn, hs, hg.1, hg.2] at hok
            | ok sy =>
              cases hd : env.token_decimals t with
              | error e => simp [token_ok, init_one, hp, hn, hs, hd, hg.1, hg.2] at hok
              | ok dc =>
                exact ⟨pa, rfl, hg.1, hg.2, ⟨nm, rfl⟩, ⟨sy, rfl⟩, ⟨dc, rfl⟩⟩
        · simp [token_ok, init_one, hp, hg] at hok
    · rintro ⟨pa, hp, h1, h2, ⟨nm, hn⟩, ⟨sy, hs⟩, ⟨dc, hd⟩⟩
      simp [token_ok, init_one, hp, hn, hs, hd, h1, h2]
  · intro env old1 old2 tokens
    rfl

/-- a concrete factory for the C9 witness: tokens 1 and 3 resolve to
distinct pairs, the middle token's factory call throws. -/
def env3 : FactoryEnv :=
  { get_pair := fun t =>
      if t = "0xt1" then Except.ok "0xPA"
      else if t = "0xt2" then Except.error ⟨"execution reverted"⟩
      else if t = "0xt3" then Except.ok "0xPB"
      else Except.ok ZERO_ADDRESS
    token_name := fun _ => Except.ok "Tok"
    token_symbol := fun _ => Except.ok "TK"
    token_decimals := fun _ => Except.ok 18 }

/-- C9 (witness): the registry theorem applied to three tokens whose middle
factory call throws — the registry contains exactly the other two, the
throwing token is disqualified, and an update from any stale registry
equals an update from any other. -/
theorem pair_registry_partial_failure_witness :
    initialize_pairs_from env3 [] ["0xt1", "0xt2", "0xt3"] =
      (["0xt1", "0xt2", "0xt3"].filter (token_ok env3)).map (entry_of env3) ∧
    (["0xt1", "0xt2", "0xt3"].filter (token_ok env3)).map (entry_of env3) =
      [("0xpa", ⟨"0xt1", "Tok", "TK", 18⟩), ("0xpb", ⟨"0xt3", "Tok", "TK", 18⟩)] ∧
    token_ok env3 "0xt2" = false ∧
    (token_ok env3 "0xt1" = true ↔
      ∃ pa, env3.get_pair "0xt1" = Except.ok pa ∧ pa ≠ "" ∧ pa ≠ ZERO_ADDRESS ∧
        (∃ nm, env3.token_name "0xt1" = Except.ok nm) ∧
        (∃ sy, env3.token_symbol "0xt1" = Except.ok sy) ∧
        (∃ dc, env3.token_decimals "0xt1" = Except.ok dc)) ∧
    update_monitored_tokens env3 [("0xstale", ⟨"0xold", "Old", "OLD", 9⟩)]
        ["0xt1", "0xt3"] =
      update_monitored_tokens env3 [] ["0xt1", "0xt3"] :=
  ⟨pair_registry_partial_failure.1 env3 ["0xt1", "0xt2", "0xt3"] (by decide),
    by decide,
    by decide,
    pair_registry_partial_failure.2.1 env3 "0xt1",
    pair_registry_partial_failure.2.2 env3 [("0xstale", ⟨"0xold", "Old", "OLD", 9⟩)] []
      ["0xt1", "0xt3"]⟩

/-! ### Pattern detector: accumulation (pattern_detector.py lines 94-154) -/

/-- one entry of the recent-buys list consumed by `detect_accumulation`
(only `buy['buyer']` and `buy['timestamp']` are read). -/
structure BuyRecord where
  buyer : String
  timestamp : ℚ
deriving DecidableEq, Repr

/-- the record returned by `PatternDetector.detect_accumulation` when it
fires. -/
structure AccumulationPattern where
  token_address : String
  start_timestamp : ℚ
  end_timestamp : ℚ
  start_price : ℚ
  end_price : ℚ
  percent_change : ℚ
  volume_change : ℚ
  wallet_count : Nat
  accumulating_wallets : List String
deriving DecidableEq, Repr

/-- the distinct buyer wallets in dict-insertion (first-seen) order, as
`wallet_buys` is built at pattern_detector.py lines 105-110. -/
def wallets_of (buys : List BuyRecord) : List String :=
  buys.foldl (fun ws b => if ws.contains b.buyer then ws else ws ++ [b.buyer]) []

/-- `wallet_buys[w]`: the buys of one wallet, in order. -/
def buys_of (buys : List BuyRecord) (w : String) : List BuyRecord :=
  buys.filter fun b => b.buyer = w

/-- `accumulating_wallets`: wallets with at least 3 in-window buys
(pattern_detector.py line 113). -/
def accumulating_wallets_of (buys : List BuyRecord) : List String :=
  (wallets_of buys).filter fun w => 3 ≤ (buys_of buys w).length

/-- `all_buys`: the buys of the accumulating wallets, concatenated in
wallet order (pattern_detector.py line 127). -/
def accumulating_buys (buys : List BuyRecord) : List BuyRecord :=
  ((accumulating_wallets_of buys).map (buys_of buys)).flatten

/-- `price_volatility = np.std(prices) / np.mean(prices) * 100 < 15`
(pattern_detector.py lines 122-125), modelled without square roots:
`np.std` is the square root of the mean squared deviation `v`, so for a
positive mean the float comparison `sqrt(v)/mean*100 < 15` is equivalent to
`10000*v < 225*mean^2`; for a negative mean the left side is nonpositive,
so the comparison is true; for a zero mean numpy yields inf or nan, and
the comparison is false. -/
def volatility_lt_15 (prices : List ℚ) : Bool :=
  let μ := np_mean prices
  let v := np_mean (prices.map fun x => (x - μ) ^ 2)
  if μ > 0 then decide (10000 * v < 225 * μ ^ 2)
  else if μ < 0 then true
  else false

/-- `start_price = next((p[1] for p in price_history if p[0] >= start_time),
prices[0])` (pattern_detector.py line 132). -/
def acc_start_price (hist : List PriceRow) (start_time : ℚ) : ℚ :=
  match hist.find? (fun p => decide (start_time ≤ (p.timestamp : ℚ))) with
  | some p => p.price_usd
  | none => (pricesOf hist).getD 0 0

/-- `end_price = next((p[1] for p in price_history if p[0] <= end_time),
prices[-1])` (pattern_detector.py line 133) — note `next` still scans the
history FORWARD, so this picks the FIRST row not after `end_time`. -/
def acc_end_price (hist : List PriceRow) (end_time : ℚ) : ℚ :=
  match hist.find? (fun p => decide ((p.timestamp : ℚ) ≤ end_time)) with
  | some p => p.price_usd
  | none => ((pricesOf hist).getLast?).getD 0

/-- body of `PatternDetector.detect_accumulation` (pattern_detector.py
lines 94-148) as a function of the fetched recent-buys list and price
history. -/
def detect_accumulation_core (token_address : String) (recent_buys : List BuyRecord)
    (price_history : List PriceRow) : Option AccumulationPattern :=
  if recent_buys.length < ACCUMULATION_THRESHOLD then none
  else
    let acc := accumulating_wallets_of recent_buys
    if acc ≠ [] then
      if price_history.length < 2 then none
      else
        if volatility_lt_15 (pricesOf price_history) then
          let all_buys := accumulating_buys recent_buys
          let start_time := np_min (all_buys.map (·.timestamp))
          let end_time := np_max (all_buys.map (·.timestamp))
          let start_price := acc_start_price price_history start_time
          let end_price := acc_end_price price_history end_time
          some
            { token_address := token_address
              start_timestamp := start_time
              end_timestamp := end_time
              start_price := start_price
              end_price := end_price
              percent_change :=
                if start_price > 0 then (end_price - start_price) / start_price * 100 else 0
              volume_change := 0
              wallet_count := acc.length
              accumulating_wallets := acc }
        else none
    else none

/-- `PatternDetector.get_recent_buys` (pattern_detector.py lines 150-154):
an acknowledged placeholder returning the empty list. -/
def get_recent_buys (_token_address : String) (_hours : ℤ) : List BuyRecord := []

/-- `PatternDetector.detect_accumulation` (pattern_detector.py lines
94-148): the fetches composed with the body. -/
def detect_accumulation (db : DBState) (now : ℤ) (token_address : String) :
    Option AccumulationPattern :=
  detect_accumulation_core token_address
    (get_recent_buys token_address ACCUMULATION_TIME_WINDOW)
    (get_token_price_history db now token_address ACCUMULATION_TIME_WINDOW)

/-- C8.  The accumulation detector fires only if there are at least
`ACCUMULATION_THRESHOLD = 5` recent buy events in the window, some wallet
among them has ≥ 3 in-window buys, and the coefficient of variation of the
window's prices is below 15%; a fired record carries `wallet_count` equal
to the number of wallets with ≥ 3 buys, start/end timestamps equal to the
earliest and latest accumulating-buy timestamps, and `percent_change =
(end_price − start_price)/start_price*100` over the prices the code
selects at those timestamps (0 when `start_price` is not positive). -/
theorem detect_accumulation_fires_only_if :
    ∀ (tok : String) (buys : List BuyRecord) (hist : List PriceRow)
      (r : AccumulationPattern),
      detect_accumulation_core tok buys hist = some r →
      ACCUMULATION_THRESHOLD ≤ buys.length ∧
      (∃ w, w ∈ accumulating_wallets_of buys ∧ 3 ≤ (buys_of buys w).length) ∧
      volatility_lt_15 (pricesOf hist) = true ∧
      r.wallet_count = (accumulating_wallets_of buys).length ∧
      r.start_timestamp = np_min ((accumulating_buys buys).map (·.timestamp)) ∧
      r.end_timestamp = np_max ((accumulating_buys buys).map (·.timestamp)) ∧
      r.start_price = acc_start_price hist r.start_timestamp ∧
      r.end_price = acc_end_price hist r.end_timestamp ∧
      r.percent_change =
        (if r.start_price > 0 then (r.end_price - r.start_price) / r.start_price * 100
         else 0) := by
  intro tok buys hist r h
  unfold detect_accumulation_core at h
  by_cases h1 : buys.length < ACCUMULATION_THRESHOLD
  · rw [if_pos h1] at h
    exact absurd h (by simp)
  rw [if_neg h1] at h
  by_cases h2 : accumulating_wallets_of buys ≠ []
  · rw [if_pos h2] at h
    by_cases h3 : hist.length < 2
    · rw [if_pos h3] at h
      exact absurd h (by simp)
    rw [if_neg h3] at h
    by_cases h4 : volatility_lt_15 (pricesOf hist) = true
    · rw [if_pos h4] at h
      have hr := (Option.some_injective _ h).symm
      subst hr
      obtain ⟨w, hw⟩ := List.exists_mem_of_ne_nil _ h2
      have hw3 : 3 ≤ (buys_of buys w).length := by
        have := (List.mem_filter.mp hw).2
        exact of_decide_eq_true this
      refine ⟨le_of_not_lt h1, ⟨w, hw, hw3⟩, h4, rfl, rfl, rfl, rfl, rfl, rfl⟩
    · rw [if_neg h4] at h
      exact absurd h (by simp)
  · rw [if_neg h2] at h
    exact absurd h (by simp)

/-- five buys by one wallet for the C8 witness. -/
def wBuys : List BuyRecord :=
  [⟨"0xw", 0⟩, ⟨"0xw", 1⟩, ⟨"0xw", 2⟩, ⟨"0xw", 3⟩, ⟨"0xw", 4⟩]

/-- a flat two-point price history (coefficient of variation 0) for the C8
witness. -/
def wHist : List PriceRow := [⟨0, 1, 10⟩, ⟨1, 1, 20⟩]

/-- C8 (witness): the theorem applied to five buys from one wallet and a
flat price series, on which the detector fires with wallet_count 1. -/
theorem detect_accumulation_fires_only_if_witness :
    ACCUMULATION_THRESHOLD ≤ wBuys.length ∧
      (∃ w, w ∈ accumulating_wallets_of wBuys ∧ 3 ≤ (buys_of wBuys w).length) ∧
      volatility_lt_15 (pricesOf wHist) = true ∧
      (AccumulationPattern.mk "0xtok" 0 4 1 1 0 0 1 ["0xw"]).wallet_count =
        (accumulating_wallets_of wBuys).length ∧
      (AccumulationPattern.mk "0xtok" 0 4 1 1 0 0 1 ["0xw"]).start_timestamp =
        np_min ((accumulating_buys wBuys).map (·.timestamp)) ∧
      (AccumulationPattern.mk "0xtok" 0 4 1 1 0 0 1 ["0xw"]).end_timestamp =
        np_max ((accumulating_buys wBuys).map (·.timestamp)) ∧
      (AccumulationPattern.mk "0xtok" 0 4 1 1 0 0 1 ["0xw"]).start_price =
        acc_start_price wHist (AccumulationPattern.mk "0xtok" 0 4 1 1 0 0 1 ["0xw"]).start_timestamp ∧
      (AccumulationPattern.mk "0xtok" 0 4 1 1 0 0 1 ["0xw"]).end_price =
        acc_end_price wHist (AccumulationPattern.mk "0xtok" 0 4 1 1 0 0 1 ["0xw"]).end_timestamp ∧
      (AccumulationPattern.mk "0xtok" 0 4 1 1 0 0 1 ["0xw"]).percent_change =
        (if (AccumulationPattern.mk "0xtok" 0 4 1 1 0 0 1 ["0xw"]).start_price > 0 then
          ((AccumulationPattern.mk "0xtok" 0 4 1 1 0 0 1 ["0xw"]).end_price -
            (AccumulationPattern.mk "0xtok" 0 4 1 1 0 0 1 ["0xw"]).start_price) /
              (AccumulationPattern.mk "0xtok" 0 4 1 1 0 0 1 ["0xw"]).start_price * 100
         else 0) :=
  detect_accumulation_fires_only_if "0xtok" wBuys wHist
    (AccumulationPattern.mk "0xtok" 0 4 1 1 0 0 1 ["0xw"])
    (by norm_num [detect_accumulation_core, accumulating_wallets_of, wallets_of, buys_of,
      accumulating_buys, volatility_lt_15, np_mean, np_min, np_max, acc_start_price,
      acc_end_price, pricesOf, wBuys, wHist, ACCUMULATION_THRESHOLD, List.find?,
      List.foldl, List.filter, List.flatten])

end BotBuyCheck
